import Mathlib

/-!
Shallow embedding of `src/main.py` (a Telegram relay bot) and proofs about
its thread-mapping and durable-state-recovery subsystem.

Python strings are modelled as `List Char`.  Python `dict` values are
modelled as insertion-ordered association lists.  The Telegram transport is
modelled as an oracle record supplying the outcome of each transport call.
-/

/-- Whitespace characters: the ones stripped by Python `str.strip` and
skipped by the JSON scanner that actually occur in the program's payloads. -/
def isSp (c : Char) : Bool :=
  c = ' ' || c = '\n' || c = '\t' || c = '\r'

/-- The decimal digit characters, indexed 0-9 (digits of Python `str(int)`). -/
def digitChar : Nat → Char
  | 0 => '0' | 1 => '1' | 2 => '2' | 3 => '3' | 4 => '4'
  | 5 => '5' | 6 => '6' | 7 => '7' | 8 => '8' | _ => '9'

/-- Decimal digit test used by the JSON number scanner. -/
def isDigitCh (c : Char) : Bool := 48 ≤ c.toNat && c.toNat ≤ 57

/-- Decimal digits of a natural number, most significant first, computed with
explicit fuel so that the definition is structural (kernel-computable).
Mirrors Python `str` on non-negative `int`. -/
def natStrF : Nat → Nat → List Char
  | 0, _ => []
  | fuel + 1, n =>
    if n < 10 then [digitChar n] else natStrF fuel (n / 10) ++ [digitChar (n % 10)]

/-- Python `str` on a non-negative integer. -/
def natStr (n : Nat) : List Char := natStrF (n + 1) n

/-- Python `str(int)`: decimal digits with a leading minus sign when negative. -/
def intStr (k : Int) : List Char :=
  if k < 0 then '-' :: natStr k.natAbs else natStr k.natAbs

/-- Greedy decimal scanner: consumes leading digits, accumulating their value,
and returns the value together with the unconsumed remainder. -/
def digs : List Char → Nat → Nat × List Char
  | [], acc => (acc, [])
  | c :: cs, acc =>
    if isDigitCh c then digs cs (acc * 10 + (c.toNat - 48)) else (acc, c :: cs)

/-- True when the list does not start with a decimal digit (so a greedy
number scan cannot extend into it). -/
def noDigitHead : List Char → Bool
  | [] => true
  | c :: _ => !isDigitCh c

/-- Scan one or more decimal digits; `none` if the input does not start with
a digit. -/
def parseDigits (s : List Char) : Option (Nat × List Char) :=
  match s with
  | [] => none
  | c :: cs => if isDigitCh c then some (digs (c :: cs) 0) else none

/-- Scan a JSON integer: an optional minus sign followed by digits. -/
def parseInt (s : List Char) : Option (Int × List Char) :=
  match s with
  | [] => none
  | c :: r =>
    if c = '-' then
      match parseDigits r with
      | some (n, r2) => some (-(n : Int), r2)
      | none => none
    else
      match parseDigits (c :: r) with
      | some (n, r2) => some ((n : Int), r2)
      | none => none

/-- Consume an expected single character, or fail. -/
def expectChar (c : Char) (s : List Char) : Option (List Char) :=
  match s with
  | [] => none
  | c2 :: r => if c2 = c then some r else none

/-- Skip leading whitespace. -/
def skipWs (s : List Char) : List Char := s.dropWhile isSp

-- ### Digit-level lemmas

lemma digitChar_isDigit (d : Nat) (h : d ≤ 9) : isDigitCh (digitChar d) = true := by
  interval_cases d <;> decide

lemma digitChar_val (d : Nat) (h : d ≤ 9) : (digitChar d).toNat - 48 = d := by
  interval_cases d <;> decide

lemma digitChar_lt128 (d : Nat) (h : d ≤ 9) : (digitChar d).toNat < 128 := by
  interval_cases d <;> decide

lemma not_sp_of_digit (c : Char) (h : isDigitCh c = true) : isSp c = false := by
  simp only [isDigitCh, Bool.and_eq_true, decide_eq_true_eq] at h
  cases hs : isSp c
  · rfl
  · exfalso
    simp only [isSp, Bool.or_eq_true, decide_eq_true_eq] at hs
    rcases hs with ((hc | hc) | hc) | hc <;> subst hc <;> revert h <;> decide

lemma digit_ne_dash (c : Char) (h : isDigitCh c = true) : (c = '-') = False := by
  simp only [eq_iff_iff, iff_false]
  intro hc; subst hc; revert h; decide

lemma natStrF_mem (fuel : Nat) : ∀ n, n < fuel →
    ∀ c ∈ natStrF fuel n, ∃ d, d ≤ 9 ∧ c = digitChar d := by
  induction fuel with
  | zero => intro n h; omega
  | succ f ih =>
    intro n _ c hc
    rw [natStrF] at hc
    by_cases h10 : n < 10
    · simp only [h10, if_true, List.mem_singleton] at hc
      exact ⟨n, by omega, hc⟩
    · simp only [h10, if_false, List.mem_append, List.mem_singleton] at hc
      rcases hc with hc | hc
      · exact ih (n / 10) (by omega) c hc
      · exact ⟨n % 10, by omega, hc⟩

lemma natStrF_head (fuel : Nat) : ∀ n, n < fuel →
    ∃ c t, natStrF fuel n = c :: t ∧ isDigitCh c = true := by
  induction fuel with
  | zero => intro n h; omega
  | succ f ih =>
    intro n _
    rw [natStrF]
    by_cases h10 : n < 10
    · exact ⟨digitChar n, [], by simp [h10], digitChar_isDigit n (by omega)⟩
    · obtain ⟨c, t, hct, hd⟩ := ih (n / 10) (by omega)
      exact ⟨c, t ++ [digitChar (n % 10)], by simp [h10, hct], hd⟩

lemma natStr_head (n : Nat) : ∃ c t, natStr n = c :: t ∧ isDigitCh c = true :=
  natStrF_head (n + 1) n (by omega)

lemma natStr_mem (n : Nat) : ∀ c ∈ natStr n, ∃ d, d ≤ 9 ∧ c = digitChar d :=
  natStrF_mem (n + 1) n (by omega)

lemma digs_stop (s : List Char) (acc : Nat) (h : noDigitHead s = true) :
    digs s acc = (acc, s) := by
  cases s with
  | nil => rfl
  | cons c cs =>
    simp only [noDigitHead, Bool.not_eq_true'] at h
    simp [digs, h]

lemma digs_natStrF (fuel : Nat) : ∀ n, n < fuel → ∀ acc rest,
    digs (natStrF fuel n ++ rest) acc
      = digs rest (acc * 10 ^ (natStrF fuel n).length + n) := by
  induction fuel with
  | zero => intro n h; omega
  | succ f ih =>
    intro n hn acc rest
    rw [natStrF]
    by_cases h10 : n < 10
    · simp only [h10, if_true, List.singleton_append, List.length_singleton]
      simp [digs, digitChar_isDigit n (by omega), digitChar_val n (by omega)]
    · simp only [h10, if_false, List.append_assoc, List.singleton_append,
        List.length_append, List.length_singleton]
      rw [ih (n / 10) (by omega)]
      simp only [digs, digitChar_isDigit (n % 10) (by omega), if_true,
        digitChar_val (n % 10) (by omega)]
      have hpow : 10 ^ ((natStrF f (n / 10)).length + 1)
          = 10 ^ (natStrF f (n / 10)).length * 10 := by ring
      rw [hpow]
      have harith : (acc * 10 ^ (natStrF f (n / 10)).length + n / 10) * 10 + n % 10
          = acc * (10 ^ (natStrF f (n / 10)).length * 10) + n := by
        have := Nat.div_add_mod n 10
        ring_nf
        omega
      rw [harith]

lemma parseDigits_natStr (n : Nat) (rest : List Char) (h : noDigitHead rest = true) :
    parseDigits (natStr n ++ rest) = some (n, rest) := by
  obtain ⟨c, t, hct, hd⟩ := natStr_head n
  have hshape : natStr n ++ rest = c :: (t ++ rest) := by rw [hct]; rfl
  rw [hshape]
  simp only [parseDigits, hd, if_true]
  have : digs (c :: (t ++ rest)) 0 = digs (natStr n ++ rest) 0 := by rw [hshape]
  rw [this]
  unfold natStr
  rw [digs_natStrF (n + 1) n (by omega)]
  simp [digs_stop rest n h]

lemma parseInt_intStr (k : Int) (rest : List Char) (h : noDigitHead rest = true) :
    parseInt (intStr k ++ rest) = some (k, rest) := by
  unfold intStr
  by_cases hk : k < 0
  · simp only [hk, if_true, List.cons_append]
    simp only [parseInt, if_true]
    rw [parseDigits_natStr k.natAbs rest h]
    show some (-(k.natAbs : Int), rest) = some (k, rest)
    have hval : -(k.natAbs : Int) = k := by omega
    rw [hval]
  · simp only [hk, if_false]
    obtain ⟨c, t, hct, hd⟩ := natStr_head k.natAbs
    have hshape : natStr k.natAbs ++ rest = c :: (t ++ rest) := by rw [hct]; rfl
    rw [hshape]
    have hne : (c = '-') = False := digit_ne_dash c hd
    simp only [parseInt, hne, if_false]
    rw [← hshape, parseDigits_natStr k.natAbs rest h]
    show some ((k.natAbs : Int), rest) = some (k, rest)
    have hval : (k.natAbs : Int) = k := by omega
    rw [hval]

-- ### BackupCodec: json.dumps / json.loads on the backup payload shape

/-- A `ThreadMap`: Python's `user_threads` dict, mapping the string-ified
integer user id (modelled as the integer itself; the codec below performs
the string conversion) to the integer thread id.  Insertion-ordered, as a
Python dict. -/
abbrev ThreadMap := List (Int × Int)

/-- One `"key": value` item of `json.dumps(user_threads, indent=2)`. -/
def entryStr (e : Int × Int) : List Char :=
  '"' :: (intStr e.1 ++ ('"' :: ':' :: ' ' :: intStr e.2))

/-- The items after the first in `json.dumps(user_threads, indent=2)`:
each preceded by the item separator `,` and the newline-plus-indent. -/
def tailStr : ThreadMap → List Char
  | [] => []
  | e :: es => ',' :: '\n' :: ' ' :: ' ' :: (entryStr e ++ tailStr es)

/-- Python `json.dumps(user_threads, ensure_ascii=False, indent=2)` (line 80)
restricted to the only value shape the program serializes: a dict of
string-ified-integer keys and integer values. -/
def jsonDumps : ThreadMap → List Char
  | [] => ['{', '}']
  | e :: es =>
    '{' :: '\n' :: ' ' :: ' ' :: (entryStr e ++ tailStr es ++ ['\n', '}'])

/-- Scan one `"key": value` member of a JSON object. -/
def parseEntry (s : List Char) : Option ((Int × Int) × List Char) :=
  match expectChar '"' s with
  | none => none
  | some r =>
    match parseInt r with
    | none => none
    | some (k, r2) =>
      match expectChar '"' r2 with
      | none => none
      | some r3 =>
        match expectChar ':' (skipWs r3) with
        | none => none
        | some r4 =>
          match parseInt (skipWs r4) with
          | none => none
          | some (v, r5) => some ((k, v), r5)

/-- Scan the members of a JSON object after the first one: either a closing
brace, or a comma followed by another member.  `fuel` bounds the recursion
(each step consumes at least one character, so `length + 1` is enough). -/
def parseItems : Nat → List Char → Option (ThreadMap × List Char)
  | 0, _ => none
  | fuel + 1, s =>
    match expectChar '}' (skipWs s) with
    | some r => some ([], r)
    | none =>
      match expectChar ',' (skipWs s) with
      | none => none
      | some r =>
        match parseEntry (skipWs r) with
        | none => none
        | some (e, r2) =>
          match parseItems fuel r2 with
          | none => none
          | some (es, r3) => some (e :: es, r3)

/-- Python `json.loads` (line 58) restricted to the backup payload format:
a JSON object with string integer keys and integer values, the only shape
the program ever publishes.  Rejects trailing garbage, as `json.loads`
does. -/
def jsonLoads (s : List Char) : Option ThreadMap :=
  match expectChar '{' (skipWs s) with
  | none => none
  | some r =>
    match expectChar '}' (skipWs r) with
    | some r2 => if skipWs r2 = [] then some [] else none
    | none =>
      match parseEntry (skipWs r) with
      | none => none
      | some (e, r3) =>
        match parseItems (r3.length + 1) r3 with
        | none => none
        | some (es, r4) => if skipWs r4 = [] then some (e :: es) else none

-- ### Scanner stepping lemmas

lemma expectChar_hit (c : Char) (r : List Char) : expectChar c (c :: r) = some r := by
  simp [expectChar]

lemma expectChar_miss (c c2 : Char) (r : List Char) (h : ¬ c2 = c) :
    expectChar c (c2 :: r) = none := by
  simp [expectChar, h]

lemma skipWs_cons_not_sp (c : Char) (r : List Char) (h : isSp c = false) :
    skipWs (c :: r) = c :: r := by
  simp [skipWs, List.dropWhile_cons, h]

lemma skipWs_cons_sp (c : Char) (r : List Char) (h : isSp c = true) :
    skipWs (c :: r) = skipWs r := by
  simp [skipWs, List.dropWhile_cons, h]

lemma noDigitHead_cons (c : Char) (l : List Char) :
    noDigitHead (c :: l) = !isDigitCh c := rfl

lemma intStr_head_not_sp (v : Int) : ∃ c t, intStr v = c :: t ∧ isSp c = false := by
  unfold intStr
  by_cases hv : v < 0
  · exact ⟨'-', natStr v.natAbs, by simp [hv], by decide⟩
  · obtain ⟨c, t, hct, hd⟩ := natStr_head v.natAbs
    exact ⟨c, t, by simp [hv, hct], not_sp_of_digit c hd⟩

lemma skipWs_intStr (v : Int) (rest : List Char) :
    skipWs (intStr v ++ rest) = intStr v ++ rest := by
  obtain ⟨c, t, hct, hsp⟩ := intStr_head_not_sp v
  rw [hct]
  exact skipWs_cons_not_sp c (t ++ rest) hsp

lemma skipWs_entryStr (e : Int × Int) (X : List Char) :
    skipWs (entryStr e ++ X) = entryStr e ++ X := by
  obtain ⟨k, v⟩ := e
  have hs : entryStr (k, v) ++ X
      = '"' :: ((intStr k ++ ('"' :: ':' :: ' ' :: intStr v)) ++ X) := rfl
  rw [hs, skipWs_cons_not_sp '"' _ (by decide)]

lemma parseEntry_entryStr (e : Int × Int) (rest : List Char)
    (h : noDigitHead rest = true) :
    parseEntry (entryStr e ++ rest) = some (e, rest) := by
  obtain ⟨k, v⟩ := e
  have hs : entryStr (k, v) ++ rest
      = '"' :: (intStr k ++ ('"' :: ':' :: ' ' :: (intStr v ++ rest))) := by
    simp [entryStr, List.append_assoc]
  rw [hs]
  have h1 : expectChar '"'
        ('"' :: (intStr k ++ ('"' :: ':' :: ' ' :: (intStr v ++ rest))))
      = some (intStr k ++ ('"' :: ':' :: ' ' :: (intStr v ++ rest))) :=
    expectChar_hit _ _
  have h2 : parseInt (intStr k ++ ('"' :: ':' :: ' ' :: (intStr v ++ rest)))
      = some (k, '"' :: ':' :: ' ' :: (intStr v ++ rest)) :=
    parseInt_intStr k _ (by rw [noDigitHead_cons]; decide)
  have h3 : expectChar '"' ('"' :: ':' :: ' ' :: (intStr v ++ rest))
      = some (':' :: ' ' :: (intStr v ++ rest)) := expectChar_hit _ _
  have h4 : skipWs (':' :: ' ' :: (intStr v ++ rest))
      = ':' :: ' ' :: (intStr v ++ rest) := skipWs_cons_not_sp ':' _ (by decide)
  have h5 : expectChar ':' (':' :: ' ' :: (intStr v ++ rest))
      = some (' ' :: (intStr v ++ rest)) := expectChar_hit _ _
  have h6 : skipWs (' ' :: (intStr v ++ rest)) = intStr v ++ rest := by
    rw [skipWs_cons_sp ' ' _ (by decide), skipWs_intStr]
  have h7 : parseInt (intStr v ++ rest) = some (v, rest) := parseInt_intStr v rest h
  simp only [parseEntry, h1, h2, h3, h4, h5, h6, h7]

lemma noDigitHead_tailStr (es : ThreadMap) (r0 : List Char) :
    noDigitHead (tailStr es ++ '\n' :: '}' :: r0) = true := by
  cases es with
  | nil => show (!isDigitCh '\n') = true; decide
  | cons e es2 => show (!isDigitCh ',') = true; decide

lemma parseItems_tailStr (es : ThreadMap) : ∀ fuel, es.length < fuel → ∀ r0,
    parseItems fuel (tailStr es ++ '\n' :: '}' :: r0) = some (es, r0) := by
  induction es with
  | nil =>
    intro fuel hf r0
    cases fuel with
    | zero => omega
    | succ f =>
      have h1 : skipWs (tailStr [] ++ '\n' :: '}' :: r0) = '}' :: r0 := by
        show skipWs ('\n' :: '}' :: r0) = '}' :: r0
        rw [skipWs_cons_sp '\n' _ (by decide), skipWs_cons_not_sp '}' _ (by decide)]
      simp only [parseItems, h1, expectChar_hit]
  | cons e es2 ih =>
    intro fuel hf r0
    cases fuel with
    | zero => omega
    | succ f =>
      have hshape : tailStr (e :: es2) ++ '\n' :: '}' :: r0
          = ',' :: '\n' :: ' ' :: ' ' ::
              (entryStr e ++ (tailStr es2 ++ '\n' :: '}' :: r0)) := by
        simp [tailStr, List.append_assoc]
      rw [hshape]
      have h1 : skipWs (',' :: '\n' :: ' ' :: ' ' ::
            (entryStr e ++ (tailStr es2 ++ '\n' :: '}' :: r0)))
          = ',' :: '\n' :: ' ' :: ' ' ::
            (entryStr e ++ (tailStr es2 ++ '\n' :: '}' :: r0)) :=
        skipWs_cons_not_sp ',' _ (by decide)
      have h2 : expectChar '}' (',' :: '\n' :: ' ' :: ' ' ::
            (entryStr e ++ (tailStr es2 ++ '\n' :: '}' :: r0))) = none :=
        expectChar_miss _ _ _ (by decide)
      have h3 : expectChar ',' (',' :: '\n' :: ' ' :: ' ' ::
            (entryStr e ++ (tailStr es2 ++ '\n' :: '}' :: r0)))
          = some ('\n' :: ' ' :: ' ' ::
              (entryStr e ++ (tailStr es2 ++ '\n' :: '}' :: r0))) :=
        expectChar_hit _ _
      have h4 : skipWs ('\n' :: ' ' :: ' ' ::
            (entryStr e ++ (tailStr es2 ++ '\n' :: '}' :: r0)))
          = entryStr e ++ (tailStr es2 ++ '\n' :: '}' :: r0) := by
        rw [skipWs_cons_sp '\n' _ (by decide), skipWs_cons_sp ' ' _ (by decide),
          skipWs_cons_sp ' ' _ (by decide), skipWs_entryStr]
      have h5 : parseEntry (entryStr e ++ (tailStr es2 ++ '\n' :: '}' :: r0))
          = some (e, tailStr es2 ++ '\n' :: '}' :: r0) :=
        parseEntry_entryStr e _ (noDigitHead_tailStr es2 r0)
      have h6 : parseItems f (tailStr es2 ++ '\n' :: '}' :: r0) = some (es2, r0) :=
        ih f (by simpa using Nat.lt_of_succ_lt_succ hf) r0
      simp only [parseItems, h1, h2, h3, h4, h5, h6]

lemma tailStr_length (es : ThreadMap) : es.length ≤ (tailStr es).length := by
  induction es with
  | nil => simp [tailStr]
  | cons e es2 ih =>
    simp only [tailStr, List.length_cons, List.length_append]
    omega

/-- The JSON scanner inverts the JSON printer on every thread map. -/
lemma jsonLoads_jsonDumps (m : ThreadMap) : jsonLoads (jsonDumps m) = some m := by
  cases m with
  | nil => rfl
  | cons e es =>
    have hshape : jsonDumps (e :: es)
        = '{' :: '\n' :: ' ' :: ' ' ::
            (entryStr e ++ (tailStr es ++ '\n' :: '}' :: [])) := by
      simp [jsonDumps, List.append_assoc]
    rw [hshape]
    have h0 : skipWs ('{' :: '\n' :: ' ' :: ' ' ::
          (entryStr e ++ (tailStr es ++ '\n' :: '}' :: [])))
        = '{' :: '\n' :: ' ' :: ' ' ::
          (entryStr e ++ (tailStr es ++ '\n' :: '}' :: [])) :=
      skipWs_cons_not_sp '{' _ (by decide)
    have h1 : expectChar '{' ('{' :: '\n' :: ' ' :: ' ' ::
          (entryStr e ++ (tailStr es ++ '\n' :: '}' :: [])))
        = some ('\n' :: ' ' :: ' ' ::
            (entryStr e ++ (tailStr es ++ '\n' :: '}' :: []))) := expectChar_hit _ _
    have h2 : skipWs ('\n' :: ' ' :: ' ' ::
          (entryStr e ++ (tailStr es ++ '\n' :: '}' :: [])))
        = entryStr e ++ (tailStr es ++ '\n' :: '}' :: []) := by
      rw [skipWs_cons_sp '\n' _ (by decide), skipWs_cons_sp ' ' _ (by decide),
        skipWs_cons_sp ' ' _ (by decide), skipWs_entryStr]
    obtain ⟨k, v⟩ := e
    have hexp : entryStr (k, v) ++ (tailStr es ++ '\n' :: '}' :: [])
        = '"' :: ((intStr k ++ ('"' :: ':' :: ' ' :: intStr v)) ++
            (tailStr es ++ '\n' :: '}' :: [])) := rfl
    have h3 : expectChar '}' (entryStr (k, v) ++ (tailStr es ++ '\n' :: '}' :: []))
        = none := by
      rw [hexp]; exact expectChar_miss _ _ _ (by decide)
    have h4 : parseEntry (entryStr (k, v) ++ (tailStr es ++ '\n' :: '}' :: []))
        = some ((k, v), tailStr es ++ '\n' :: '}' :: []) :=
      parseEntry_entryStr (k, v) _ (noDigitHead_tailStr es [])
    have h5 : parseItems ((tailStr es ++ '\n' :: '}' :: []).length + 1)
          (tailStr es ++ '\n' :: '}' :: []) = some (es, []) := by
      apply parseItems_tailStr es
      have := tailStr_length es
      simp only [List.length_append, List.length_cons]
      omega
    simp only [jsonLoads, h0, h1, h2, h3, h4, h5]
    simp [skipWs]

-- ### The backup marker, Python str.replace and str.strip

/-- The backup marker `"🔄 BACKUP_THREADS:"` (lines 52, 55 and 81) as a list
of characters. -/
def markerChars : List Char :=
  ['🔄', ' ', 'B', 'A', 'C', 'K', 'U', 'P', '_', 'T', 'H', 'R', 'E', 'A', 'D', 'S', ':']

/-- Python `str.startswith` (line 52). -/
def startsWithL : List Char → List Char → Bool
  | [], _ => true
  | _ :: _, [] => false
  | p :: ps, c :: cs => p == c && startsWithL ps cs

/-- Python `text.replace(marker, "")` (line 55): remove every non-overlapping
occurrence of the marker, scanning left to right.  `fuel` bounds the
recursion (each step consumes at least one character, so the input length is
enough). -/
def replaceMarkerF : Nat → List Char → List Char
  | 0, s => s
  | _ + 1, [] => []
  | fuel + 1, c :: rest =>
    if startsWithL markerChars (c :: rest)
    then replaceMarkerF fuel ((c :: rest).drop markerChars.length)
    else c :: replaceMarkerF fuel rest

/-- Python `text.replace("🔄 BACKUP_THREADS:", "")` at line 55. -/
def replaceMarker (s : List Char) : List Char := replaceMarkerF s.length s

/-- Python `str.strip()` (line 55): drop leading and trailing whitespace. -/
def stripChars (s : List Char) : List Char := (skipWs ((skipWs s).reverse)).reverse

/-- Lines 80-81: the backup payload published by `save_threads_to_group`:
the marker, a newline, and `json.dumps(user_threads, indent=2)`. -/
def encodeBackup (m : ThreadMap) : List Char := markerChars ++ '\n' :: jsonDumps m

/-- Lines 55-58: decoding applied by `load_threads_from_group` to a candidate
message text: remove the marker, strip whitespace, and `json.loads` the
result when it is non-empty (an empty remainder is never decoded). -/
def decodeBackup (s : List Char) : Option ThreadMap :=
  if stripChars (replaceMarker s) = [] then none
  else jsonLoads (stripChars (replaceMarker s))

-- ### No character of a dumped payload is the marker's first character

lemma startsWithL_marker_head (c : Char) (cs : List Char)
    (h : startsWithL markerChars (c :: cs) = true) : c = '🔄' := by
  simp only [markerChars, startsWithL, Bool.and_eq_true, beq_iff_eq] at h
  exact h.1.symm

lemma startsWithL_append (p s : List Char) : startsWithL p (p ++ s) = true := by
  induction p with
  | nil => rfl
  | cons c ps ih => simp [startsWithL, ih]

lemma intStr_ne_emoji (v : Int) : ∀ c ∈ intStr v, c ≠ '🔄' := by
  intro c hc
  unfold intStr at hc
  by_cases hv : v < 0
  · simp only [hv, if_true, List.mem_cons] at hc
    rcases hc with rfl | hc
    · decide
    · obtain ⟨d, hd, rfl⟩ := natStr_mem _ c hc
      interval_cases d <;> decide
  · simp only [hv, if_false] at hc
    obtain ⟨d, hd, rfl⟩ := natStr_mem _ c hc
    interval_cases d <;> decide

lemma entryStr_ne_emoji (e : Int × Int) : ∀ c ∈ entryStr e, c ≠ '🔄' := by
  obtain ⟨k, v⟩ := e
  intro c hc
  simp only [entryStr, List.mem_cons, List.mem_append] at hc
  rcases hc with rfl | hc
  · decide
  rcases hc with hc | hc
  · exact intStr_ne_emoji k c hc
  rcases hc with rfl | hc
  · decide
  rcases hc with rfl | hc
  · decide
  rcases hc with rfl | hc
  · decide
  exact intStr_ne_emoji v c hc

lemma tailStr_ne_emoji (es : ThreadMap) : ∀ c ∈ tailStr es, c ≠ '🔄' := by
  induction es with
  | nil => intro c hc; simp [tailStr] at hc
  | cons e es2 ih =>
    intro c hc
    simp only [tailStr, List.mem_cons, List.mem_append] at hc
    rcases hc with rfl | hc
    · decide
    rcases hc with rfl | hc
    · decide
    rcases hc with rfl | hc
    · decide
    rcases hc with rfl | hc
    · decide
    rcases hc with hc | hc
    · exact entryStr_ne_emoji e c hc
    · exact ih c hc

lemma jsonDumps_ne_emoji (m : ThreadMap) : ∀ c ∈ jsonDumps m, c ≠ '🔄' := by
  cases m with
  | nil =>
    intro c hc
    simp only [jsonDumps, List.mem_cons, List.not_mem_nil, or_false] at hc
    rcases hc with rfl | rfl <;> decide
  | cons e es =>
    intro c hc
    simp only [jsonDumps, List.mem_cons, List.mem_append, List.not_mem_nil,
      or_false] at hc
    rcases hc with rfl | hc
    · decide
    rcases hc with rfl | hc
    · decide
    rcases hc with rfl | hc
    · decide
    rcases hc with rfl | hc
    · decide
    rcases hc with hc | hc
    · rcases hc with hc | hc
      · exact entryStr_ne_emoji e c hc
      · exact tailStr_ne_emoji es c hc
    · rcases hc with rfl | rfl <;> decide

-- ### replace and strip on a published payload

lemma replaceMarkerF_id (fuel : Nat) : ∀ s, s.length ≤ fuel →
    (∀ c ∈ s, c ≠ '🔄') → replaceMarkerF fuel s = s := by
  induction fuel with
  | zero => intro s _ _; rfl
  | succ f ih =>
    intro s hl hmem
    cases s with
    | nil => rfl
    | cons c rest =>
      have hsw : startsWithL markerChars (c :: rest) = false := by
        cases hsw2 : startsWithL markerChars (c :: rest)
        · rfl
        · exact absurd (startsWithL_marker_head c rest hsw2)
            (hmem c (List.mem_cons_self c rest))
      have hrec : replaceMarkerF f rest = rest :=
        ih rest (by simp only [List.length_cons] at hl; omega)
          (fun c2 hc2 => hmem c2 (List.mem_cons_of_mem c hc2))
      rw [replaceMarkerF]
      simp [hsw, hrec]

lemma replaceMarker_encode (s : List Char) (hmem : ∀ c ∈ s, c ≠ '🔄') :
    replaceMarker (markerChars ++ s) = s := by
  unfold replaceMarker
  have hlen : (markerChars ++ s).length = s.length + 16 + 1 := by
    simp only [List.length_append, markerChars, List.length_cons]
    simp
    omega
  rw [hlen]
  have hshape : markerChars ++ s = '🔄' :: (List.drop 1 markerChars ++ s) := rfl
  rw [hshape, replaceMarkerF]
  have hsw : startsWithL markerChars ('🔄' :: (List.drop 1 markerChars ++ s)) = true := by
    rw [← hshape]; exact startsWithL_append markerChars s
  have hdrop : ('🔄' :: (List.drop 1 markerChars ++ s)).drop markerChars.length = s := by
    rw [← hshape]
    exact List.drop_left markerChars s
  rw [hsw, if_pos rfl, hdrop]
  exact replaceMarkerF_id (s.length + 16) s (by omega) hmem

lemma jsonDumps_shape (m : ThreadMap) : ∃ mid, jsonDumps m = '{' :: (mid ++ ['}']) := by
  cases m with
  | nil => exact ⟨[], rfl⟩
  | cons e es =>
    refine ⟨'\n' :: ' ' :: ' ' :: (entryStr e ++ tailStr es ++ ['\n']), ?_⟩
    simp [jsonDumps, List.append_assoc]

lemma stripChars_backup (m : ThreadMap) :
    stripChars ('\n' :: jsonDumps m) = jsonDumps m := by
  obtain ⟨mid, hm⟩ := jsonDumps_shape m
  unfold stripChars
  have h1 : skipWs ('\n' :: jsonDumps m) = jsonDumps m := by
    rw [skipWs_cons_sp '\n' _ (by decide), hm, skipWs_cons_not_sp '{' _ (by decide)]
  rw [h1]
  have h2 : skipWs ((jsonDumps m).reverse) = (jsonDumps m).reverse := by
    rw [hm]
    have hrev : ('{' :: (mid ++ ['}'])).reverse = '}' :: (mid.reverse ++ ['{']) := by
      simp
    rw [hrev, skipWs_cons_not_sp '}' _ (by decide), ← hrev]
  rw [h2, List.reverse_reverse]

/-- C2: for every ThreadMap `m`, including the empty map, decoding the
backup payload produced by encoding `m` (lines 80-81 encode, lines 55-58
decode) yields exactly `m`. -/
theorem decode_encode_roundtrip (m : ThreadMap) :
    decodeBackup (encodeBackup m) = some m := by
  unfold encodeBackup decodeBackup
  have hmem : ∀ c ∈ '\n' :: jsonDumps m, c ≠ '🔄' := by
    intro c hc
    rcases List.mem_cons.mp hc with rfl | hc
    · decide
    · exact jsonDumps_ne_emoji m c hc
  rw [replaceMarker_encode _ hmem, stripChars_backup]
  have hne : jsonDumps m ≠ [] := by
    obtain ⟨mid, hm⟩ := jsonDumps_shape m
    simp [hm]
  rw [if_neg hne]
  exact jsonLoads_jsonDumps m

-- ### ThreadStore: the user_threads dict and its two lookups

/-- Python dict lookup `user_threads.get(user_id)` (line 142). -/
def dictGet (m : ThreadMap) (k : Int) : Option Int :=
  match m with
  | [] => none
  | (k2, v) :: rest => if k2 = k then some v else dictGet rest k

/-- Python dict assignment `user_threads[str(user_id)] = thread_id`
(line 130): update in place when the key exists (keeping its position,
as a Python dict does), otherwise append. -/
def dictSet (m : ThreadMap) (k v : Int) : ThreadMap :=
  match m with
  | [] => [(k, v)]
  | (k2, v2) :: rest =>
    if k2 = k then (k, v) :: rest else (k2, v2) :: dictSet rest k v

/-- The reverse lookup of lines 217-221: scan `user_threads.items()` in
insertion order and return the first user whose thread id matches. -/
def find_user_by_thread (m : ThreadMap) (tid : Int) : Option Int :=
  match m with
  | [] => none
  | (uid, t) :: rest => if t = tid then some uid else find_user_by_thread rest tid

/-- The module-level mutable state of main.py: `user_threads` (line 31) and
`backup_message_id` (line 32). -/
structure BotState where
  user_threads : ThreadMap
  backup_message_id : Option Nat
deriving DecidableEq

-- ### RecoveryLoader: load_threads_from_group (lines 35-73)

/-- The message carried by one update as far as the recovery scan looks at
it: chat id, topic thread id, text, and message id. -/
structure UpdMsg where
  chat_id : Int
  message_thread_id : Option Int
  text : Option (List Char)
  message_id : Nat
deriving DecidableEq

/-- The filter of lines 48-52: the update carries a message in the admin
group's general topic (thread id 1) whose text starts with the backup
marker.  An update without a message never qualifies. -/
def isBackupCandidate (gid : Int) (m : UpdMsg) : Bool :=
  m.chat_id == gid && m.message_thread_id == some 1 &&
    (match m.text with
     | some t => startsWithL markerChars t
     | none => false)

/-- The scan loop of lines 47-61 over the (already reversed) update list:
on each qualifying candidate remember its message id; if the payload left
after removing the marker and stripping is empty, keep scanning; otherwise
`json.loads` it — success breaks out of the loop with the decoded map, and
a decode exception aborts the whole scan to the empty map (the
`except` of lines 67-69). When the scan ends without a break, `user_threads`
is set to the empty map (lines 63-65). -/
def loadLoop (gid : Int) : List (Option UpdMsg) → BotState → BotState
  | [], st => { st with user_threads := [] }
  | u :: rest, st =>
    match u with
    | some m =>
      if isBackupCandidate gid m then
        if stripChars (replaceMarker (m.text.getD [])) = [] then
          loadLoop gid rest { st with backup_message_id := some m.message_id }
        else
          match jsonLoads (stripChars (replaceMarker (m.text.getD []))) with
          | some tm =>
            { user_threads := tm, backup_message_id := some m.message_id }
          | none =>
            { user_threads := [], backup_message_id := some m.message_id }
      else loadLoop gid rest st
    | none => loadLoop gid rest st

/-- Function `load_threads_from_group` (lines 35-73).  `updates` is the list returned
by `bot.get_updates(limit=100)`, in chronological order (oldest first, as
the Telegram API returns them); line 47 iterates over `reversed(updates)`,
i.e. newest first. -/
def load_threads_from_group (gid : Int) (updates : List (Option UpdMsg))
    (st : BotState) : BotState :=
  loadLoop gid updates.reverse st

/-- The candidate the scan loop actually decodes: the payload (marker
removed, stripped) of the first candidate in scan order whose payload is
non-empty. -/
def winAux (gid : Int) : List (Option UpdMsg) → Option (List Char)
  | [] => none
  | u :: rest =>
    match u with
    | some m =>
      if isBackupCandidate gid m then
        if stripChars (replaceMarker (m.text.getD [])) = [] then winAux gid rest
        else some (stripChars (replaceMarker (m.text.getD [])))
      else winAux gid rest
    | none => winAux gid rest

/-- The winning payload of a recovery scan: the most recent backup candidate
in the update window whose payload is non-empty. -/
def winnerPayload (gid : Int) (updates : List (Option UpdMsg)) : Option (List Char) :=
  winAux gid updates.reverse

/-- The claim's reading of the scan policy, stated from the claim's own
words for comparison with the implementation: the most recently published
tagged candidate wins outright, whether or not its payload is empty, and
its (possibly empty) payload is what gets restored. -/
def claimNewestPayload (gid : Int) : List (Option UpdMsg) → Option (List Char)
  | [] => none
  | u :: rest =>
    match u with
    | some m =>
      if isBackupCandidate gid m then some (stripChars (replaceMarker (m.text.getD [])))
      else claimNewestPayload gid rest
    | none => claimNewestPayload gid rest

/-- The restored map as a function of the winning payload: empty when there
is no winner, the decoded map when the winner decodes, and empty again when
decoding the winner raises. -/
def restoredOf (w : Option (List Char)) : ThreadMap :=
  match w with
  | none => []
  | some p =>
    match jsonLoads p with
    | some tm => tm
    | none => []

lemma loadLoop_characterization (gid : Int) (l : List (Option UpdMsg)) :
    ∀ st, (loadLoop gid l st).user_threads = restoredOf (winAux gid l) := by
  induction l with
  | nil => intro st; rfl
  | cons u rest ih =>
    intro st
    cases u with
    | none => simp only [loadLoop, winAux]; exact ih st
    | some m =>
      by_cases hc : isBackupCandidate gid m
      · by_cases hp : stripChars (replaceMarker (m.text.getD [])) = []
        · simp only [loadLoop, winAux, hc, if_true, hp]
          exact ih _
        · simp only [loadLoop, winAux, hc, if_true, hp, if_neg hp]
          cases hj : jsonLoads (stripChars (replaceMarker (m.text.getD []))) with
          | none => simp [restoredOf, hj]
          | some tm => simp [restoredOf, hj]
      · simp only [loadLoop, winAux, hc, if_false]
        exact ih st

/-- C1 (amended): the recovery scan restores the ThreadStore from the most
recent candidate whose payload is non-empty — candidates whose payload is
empty after the marker is removed are skipped in favour of older ones — and
the content of every other candidate is discarded entirely (no merge): the
restored map is a function of that single winning payload alone. -/
theorem load_restores_most_recent_nonempty_only (gid : Int)
    (updates : List (Option UpdMsg)) (st : BotState) :
    (load_threads_from_group gid updates st).user_threads
      = restoredOf (winnerPayload gid updates) :=
  loadLoop_characterization gid updates.reverse st

/-- Demo window for the C1 counterexample: chronologically, first a backup
message whose payload decodes to `{"1": 2}`, then a newer backup message
whose payload is empty after the marker. -/
def olderBackupMsg : UpdMsg :=
  { chat_id := 42, message_thread_id := some 1,
    text := some (markerChars ++ '\n' :: jsonDumps [((1 : Int), (2 : Int))]),
    message_id := 10 }

def newerEmptyBackupMsg : UpdMsg :=
  { chat_id := 42, message_thread_id := some 1,
    text := some (markerChars ++ ['\n']),
    message_id := 11 }

def demoUpdates : List (Option UpdMsg) := [some olderBackupMsg, some newerEmptyBackupMsg]

/-- C1 (counterexample): in a window with two tagged candidates where the
most recent one's payload is empty, the loader does NOT restore from the
most recent candidate's content — it restores the older candidate's
entries instead of discarding them. -/
theorem load_most_recent_claim_cex :
    claimNewestPayload 42 demoUpdates.reverse = some [] ∧
    (load_threads_from_group 42 demoUpdates ⟨[], none⟩).user_threads
      = [((1 : Int), (2 : Int))] ∧
    (load_threads_from_group 42 demoUpdates ⟨[], none⟩).user_threads
      ≠ restoredOf (some []) := by
  refine ⟨?_, ?_, ?_⟩ <;> decide

-- ### Router and PersistencePublisher (lines 75-232)

/-- The payload kinds distinguished by the forwarding chain of lines
155-201, plus two kinds the chain does not handle (location, contact). -/
inductive PayloadKind
  | text | photo | document | video | voice | audio | sticker
  | location | contact
deriving DecidableEq

/-- Outcome oracle for the transport calls made while handling one event. -/
structure Transport where
  introOk : Bool
  newThreadId : Int
  editOk : Bool
  sendBackupOk : Bool
  backupMsgId : Nat
  forwardOk : Bool
  copyOk : Bool
deriving DecidableEq

/-- A transport-visible event emitted by a handler. -/
inductive Ev
  | createThread (uid : Int) (tid : Int)
  | editBackup (handle : Nat) (payload : List Char) (ok : Bool)
  | publishBackup (handle : Nat) (payload : List Char)
  | retireBackup (handle : Nat)
  | forward (tid : Int) (kind : PayloadKind)
  | copyToUser (uid : Int)
deriving DecidableEq

/-- Function `save_threads_to_group` (lines 75-109): with a remembered handle, edit
the existing backup message in place; if the edit fails, clear the handle
and send the payload as a new backup message, remembering its id; with no
handle, send a new backup message.  A failing send is swallowed by the
outer `except` (line 108).  Returns the emitted transport events and the
updated state. -/
def save_threads_to_group (tr : Transport) (st : BotState) : List Ev × BotState :=
  match st.backup_message_id with
  | some h =>
    if tr.editOk then ([Ev.editBackup h (encodeBackup st.user_threads) true], st)
    else if tr.sendBackupOk then
      ([Ev.editBackup h (encodeBackup st.user_threads) false,
        Ev.publishBackup tr.backupMsgId (encodeBackup st.user_threads)],
       { st with backup_message_id := some tr.backupMsgId })
    else
      ([Ev.editBackup h (encodeBackup st.user_threads) false],
       { st with backup_message_id := none })
  | none =>
    if tr.sendBackupOk then
      ([Ev.publishBackup tr.backupMsgId (encodeBackup st.user_threads)],
       { st with backup_message_id := some tr.backupMsgId })
    else ([], st)

/-- Function `open_thread_for_user` (lines 111-136): send the introductory message
into the admin group; on success record the new thread id under the user's
key (line 130) and persist at once via `save_threads_to_group` (line 131),
returning the thread id; on failure log and re-raise (modelled as `none`)
without recording anything. -/
def open_thread_for_user (tr : Transport) (uid : Int) (st : BotState) :
    List Ev × BotState × Option Int :=
  if tr.introOk then
    let st1 : BotState :=
      { st with user_threads := dictSet st.user_threads uid tr.newThreadId }
    let r := save_threads_to_group tr st1
    (Ev.createThread uid tr.newThreadId :: r.1, r.2, some tr.newThreadId)
  else ([], st, none)

/-- True for the payload kinds the elif-chain of lines 155-201 forwards;
false for any other kind, which the chain silently ignores. -/
def forwardablePayload : PayloadKind → Bool
  | .text => true | .photo => true | .document => true | .video => true
  | .voice => true | .audio => true | .sticker => true
  | .location => false | .contact => false

/-- The forwarding chain of lines 153-203: send the payload into the
resolved thread when its kind is handled; a transport failure is caught and
logged (line 202); unhandled kinds fall through the chain and nothing is
sent. -/
def forwardPayload (tr : Transport) (k : PayloadKind) (tid : Int) : List Ev :=
  if forwardablePayload k then
    (if tr.forwardOk then [Ev.forward tid k] else [])
  else []

/-- A private-chat message as the router sees it: sender and payload kind. -/
structure PrivateMsg where
  fromUser : Int
  kind : PayloadKind
deriving DecidableEq

/-- Function `forward_to_group` (lines 138-203): look up the sender's thread; when
absent, create one (dropping the event if creation fails, lines 149-151);
then relay the payload into the thread. -/
def forward_to_group (tr : Transport) (msg : PrivateMsg) (st : BotState) :
    List Ev × BotState :=
  match dictGet st.user_threads msg.fromUser with
  | some tid => (forwardPayload tr msg.kind tid, st)
  | none =>
    match open_thread_for_user tr msg.fromUser st with
    | (evs, st2, some tid) => (evs ++ forwardPayload tr msg.kind tid, st2)
    | (evs, st2, none) => (evs, st2)

/-- Sequential handling of a list of private-chat messages, one at a time,
as the single-threaded dispatcher delivers them. -/
def processMsgs (tr : Transport) : List PrivateMsg → BotState → List Ev × BotState
  | [], st => ([], st)
  | m :: ms, st =>
    let r := forward_to_group tr m st
    let r2 := processMsgs tr ms r.2
    (r.1 ++ r2.1, r2.2)

/-- An admin-group message as `handle_group_reply` inspects it. -/
structure GroupMsg where
  is_topic_message : Bool
  text : Option (List Char)
  message_thread_id : Int
deriving DecidableEq

/-- Function `handle_group_reply` (lines 205-232): ignore non-topic messages; ignore
backup messages by their marker (line 211) before any lookup; otherwise
resolve the user by reverse scan and copy the message to them (copy failure
is caught at line 231).  The state is never mutated. -/
def handle_group_reply (tr : Transport) (msg : GroupMsg) (st : BotState) : List Ev :=
  if !msg.is_topic_message then []
  else if (match msg.text with
           | some t => startsWithL markerChars t
           | none => false) then []
  else
    match find_user_by_thread st.user_threads msg.message_thread_id with
    | some uid => if tr.copyOk then [Ev.copyToUser uid] else []
    | none => []

-- ### Event predicates

/-- The event is a thread creation for the given user. -/
def isCreateFor (u : Int) : Ev → Bool
  | .createThread uid _ => uid == u
  | _ => false

/-- The event publishes the backup: a successful in-place edit or a newly
sent backup message. -/
def isPublishEv : Ev → Bool
  | .editBackup _ _ ok => ok
  | .publishBackup _ _ => true
  | _ => false

/-- The event sends a brand-new backup artifact. -/
def isNewArtifactEv : Ev → Bool
  | .publishBackup _ _ => true
  | _ => false

/-- The event retires (deletes) a previously published backup artifact. -/
def isRetireEv : Ev → Bool
  | .retireBackup _ => true
  | _ => false

/-- The event forwards a user payload into a thread. -/
def isForwardEv : Ev → Bool
  | .forward _ _ => true
  | _ => false

-- ### C7: decode failure of the winning candidate

/-- C7: when the winning backup candidate's payload fails to decode, the
scan's exception handler (lines 67-69) makes recovery non-fatal: the
ThreadStore is set to the empty map and the loader returns normally instead
of crashing or keeping a half-decoded state. -/
theorem decode_failure_falls_back_to_empty (gid : Int)
    (updates : List (Option UpdMsg)) (st : BotState) (p : List Char)
    (hw : winnerPayload gid updates = some p)
    (hd : jsonLoads p = none) :
    (load_threads_from_group gid updates st).user_threads = [] := by
  unfold load_threads_from_group
  rw [loadLoop_characterization gid updates.reverse st]
  unfold winnerPayload at hw
  rw [hw]
  simp [restoredOf, hd]

/-- A scan window containing one backup candidate whose payload is
malformed JSON. -/
def badBackupMsg : UpdMsg :=
  { chat_id := 42, message_thread_id := some 1,
    text := some (markerChars ++ '\n' :: ['{', 'b', 'a', 'd']),
    message_id := 12 }

def badUpdates : List (Option UpdMsg) := [some badBackupMsg]

theorem decode_failure_falls_back_to_empty_witness :
    winnerPayload 42 badUpdates = some ['{', 'b', 'a', 'd'] ∧
    jsonLoads ['{', 'b', 'a', 'd'] = none ∧
    (load_threads_from_group 42 badUpdates ⟨[], none⟩).user_threads = [] :=
  ⟨by decide, by decide,
   decode_failure_falls_back_to_empty 42 badUpdates ⟨[], none⟩
     ['{', 'b', 'a', 'd'] (by decide) (by decide)⟩

-- ### Helper lemmas about the publisher and router

lemma save_user_threads (tr : Transport) (st : BotState) :
    (save_threads_to_group tr st).2.user_threads = st.user_threads := by
  obtain ⟨ut, bmi⟩ := st
  cases bmi with
  | none =>
    by_cases hs : tr.sendBackupOk <;> simp [save_threads_to_group, hs]
  | some h2 =>
    by_cases he : tr.editOk
    · simp [save_threads_to_group, he]
    · by_cases hs : tr.sendBackupOk <;> simp [save_threads_to_group, he, hs]

lemma save_no_create (tr : Transport) (st : BotState) (u : Int) :
    (save_threads_to_group tr st).1.countP (isCreateFor u) = 0 := by
  obtain ⟨ut, bmi⟩ := st
  cases bmi with
  | none =>
    by_cases hs : tr.sendBackupOk <;>
      simp [save_threads_to_group, hs, isCreateFor, List.countP_cons]
  | some h2 =>
    by_cases he : tr.editOk
    · simp [save_threads_to_group, he, isCreateFor, List.countP_cons]
    · by_cases hs : tr.sendBackupOk <;>
        simp [save_threads_to_group, he, hs, isCreateFor, List.countP_cons]

lemma forwardPayload_no_create (tr : Transport) (k : PayloadKind) (tid u : Int) :
    (forwardPayload tr k tid).countP (isCreateFor u) = 0 := by
  unfold forwardPayload
  by_cases hf : forwardablePayload k <;> by_cases ho : tr.forwardOk <;>
    simp [hf, ho, isCreateFor, List.countP_cons]

lemma dictGet_dictSet_self (m : ThreadMap) (k v : Int) :
    dictGet (dictSet m k v) k = some v := by
  induction m with
  | nil => simp [dictSet, dictGet]
  | cons p rest ih =>
    obtain ⟨k2, v2⟩ := p
    by_cases hk : k2 = k
    · simp [dictSet, dictGet, hk]
    · simp [dictSet, dictGet, hk, ih]

lemma dictGet_dictSet_ne (m : ThreadMap) (k v u : Int) (h : ¬ k = u) :
    dictGet (dictSet m k v) u = dictGet m u := by
  induction m with
  | nil => simp [dictSet, dictGet, h]
  | cons p rest ih =>
    obtain ⟨k2, v2⟩ := p
    by_cases hk : k2 = k
    · subst hk
      simp [dictSet, dictGet, h]
    · simp [dictSet, dictGet, hk, ih]

lemma forward_preserves_mapping (tr : Transport) (m : PrivateMsg) (st : BotState)
    (u : Int) (hu : (dictGet st.user_threads u).isSome) :
    (dictGet (forward_to_group tr m st).2.user_threads u).isSome := by
  unfold forward_to_group
  cases hg : dictGet st.user_threads m.fromUser with
  | some tid => simpa using hu
  | none =>
    by_cases hi : tr.introOk
    · have hne : ¬ m.fromUser = u := by
        intro he
        rw [← he, hg] at hu
        simp at hu
      simp only [open_thread_for_user, hi, if_true]
      simpa [save_user_threads, dictGet_dictSet_ne _ _ _ _ hne] using hu
    · simpa [open_thread_for_user, hi] using hu

lemma forward_no_create_when_mapped (tr : Transport) (m : PrivateMsg)
    (st : BotState) (u : Int) (hu : (dictGet st.user_threads u).isSome) :
    (forward_to_group tr m st).1.countP (isCreateFor u) = 0 := by
  unfold forward_to_group
  cases hg : dictGet st.user_threads m.fromUser with
  | some tid => simp [forwardPayload_no_create]
  | none =>
    by_cases hi : tr.introOk
    · have hne : ¬ m.fromUser = u := by
        intro he
        rw [← he, hg] at hu
        simp at hu
      simp only [open_thread_for_user, hi, if_true]
      simp [List.countP_cons, List.countP_append, isCreateFor, hne,
        forwardPayload_no_create, save_no_create]
    · simp [open_thread_for_user, hi]

lemma processMsgs_no_create (tr : Transport) (msgs : List PrivateMsg) :
    ∀ st u, (dictGet st.user_threads u).isSome →
      (processMsgs tr msgs st).1.countP (isCreateFor u) = 0 := by
  induction msgs with
  | nil => intro st u _; simp [processMsgs]
  | cons m ms ih =>
    intro st u hu
    simp only [processMsgs, List.countP_append]
    rw [forward_no_create_when_mapped tr m st u hu,
      ih _ u (forward_preserves_mapping tr m st u hu)]

-- ### C3, C9, C10: the private-chat path

lemma forward_unmapped_threads (tr : Transport) (st : BotState) (u : Int)
    (k : PayloadKind) (hu : dictGet st.user_threads u = none)
    (hintro : tr.introOk = true) :
    (forward_to_group tr ⟨u, k⟩ st).2.user_threads
      = dictSet st.user_threads u tr.newThreadId := by
  unfold forward_to_group
  simp only [hu]
  simp only [open_thread_for_user, hintro, if_true]
  simp [save_user_threads]

/-- C3: for an unmapped user, handling the first private message performs
exactly one thread creation and exactly one persistence publish, every
publish precedes any forwarding of the payload, the new mapping is recorded
under the user's key, and processing any later sequence of private messages
performs zero thread creations for that user. -/
theorem first_message_creates_and_persists_once (tr : Transport) (st : BotState)
    (u : Int) (k : PayloadKind)
    (hu : dictGet st.user_threads u = none)
    (hintro : tr.introOk = true)
    (hsend : tr.sendBackupOk = true) :
    ((forward_to_group tr ⟨u, k⟩ st).1.countP (isCreateFor u) = 1) ∧
    ((forward_to_group tr ⟨u, k⟩ st).1.countP isPublishEv = 1) ∧
    (((forward_to_group tr ⟨u, k⟩ st).1.takeWhile
        (fun e => !isForwardEv e)).countP isPublishEv = 1) ∧
    (dictGet (forward_to_group tr ⟨u, k⟩ st).2.user_threads u = some tr.newThreadId) ∧
    (∀ tr2 msgs,
      (processMsgs tr2 msgs (forward_to_group tr ⟨u, k⟩ st).2).1.countP
        (isCreateFor u) = 0) := by
  have hmap : dictGet (forward_to_group tr ⟨u, k⟩ st).2.user_threads u
      = some tr.newThreadId := by
    rw [forward_unmapped_threads tr st u k hu hintro, dictGet_dictSet_self]
  refine ⟨?_, ?_, ?_, hmap, fun tr2 msgs =>
    processMsgs_no_create tr2 msgs _ u (by simp [hmap])⟩ <;>
  · unfold forward_to_group
    simp only [hu]
    simp only [open_thread_for_user, hintro, if_true]
    obtain ⟨ut, bmi⟩ := st
    cases bmi with
    | none =>
      by_cases hf : forwardablePayload k <;> by_cases ho : tr.forwardOk <;>
        simp [save_threads_to_group, forwardPayload, hsend, hf, ho,
          isCreateFor, isPublishEv, isForwardEv,
          List.countP_cons, List.countP_append, List.takeWhile]
    | some h2 =>
      by_cases he : tr.editOk <;>
        by_cases hf : forwardablePayload k <;> by_cases ho : tr.forwardOk <;>
          simp [save_threads_to_group, forwardPayload, hsend, he, hf, ho,
            isCreateFor, isPublishEv, isForwardEv,
            List.countP_cons, List.countP_append, List.takeWhile]

/-- Concrete transport oracle in which every call succeeds. -/
def trDemo : Transport :=
  { introOk := true, newThreadId := 7, editOk := true, sendBackupOk := true,
    backupMsgId := 5, forwardOk := true, copyOk := true }

theorem first_message_creates_and_persists_once_witness :
    ((forward_to_group trDemo ⟨100, PayloadKind.text⟩ ⟨[], none⟩).1.countP
        (isCreateFor 100) = 1) ∧
    ((forward_to_group trDemo ⟨100, PayloadKind.text⟩ ⟨[], none⟩).1.countP
        isPublishEv = 1) ∧
    (((forward_to_group trDemo ⟨100, PayloadKind.text⟩ ⟨[], none⟩).1.takeWhile
        (fun e => !isForwardEv e)).countP isPublishEv = 1) ∧
    (dictGet (forward_to_group trDemo ⟨100, PayloadKind.text⟩ ⟨[], none⟩).2.user_threads
        100 = some 7) ∧
    ((processMsgs trDemo [⟨100, PayloadKind.photo⟩]
        (forward_to_group trDemo ⟨100, PayloadKind.text⟩ ⟨[], none⟩).2).1.countP
        (isCreateFor 100) = 0) := by
  have h := first_message_creates_and_persists_once trDemo ⟨[], none⟩ 100
    PayloadKind.text rfl rfl rfl
  exact ⟨h.1, h.2.1, h.2.2.1, h.2.2.2.1, h.2.2.2.2 trDemo [⟨100, PayloadKind.photo⟩]⟩

/-- C9: a private message from an unmapped user whose thread creation fails
is dropped and only logged: nothing is forwarded, no mapping is recorded,
no retry happens, and the handler returns normally with the state
unchanged. -/
theorem thread_creation_failure_drops_event (tr : Transport) (st : BotState)
    (u : Int) (k : PayloadKind)
    (hu : dictGet st.user_threads u = none)
    (hintro : tr.introOk = false) :
    forward_to_group tr ⟨u, k⟩ st = ([], st) := by
  unfold forward_to_group
  simp only [hu]
  simp [open_thread_for_user, hintro]

/-- Concrete transport oracle in which the intro send fails. -/
def trFail : Transport :=
  { introOk := false, newThreadId := 7, editOk := true, sendBackupOk := true,
    backupMsgId := 5, forwardOk := true, copyOk := true }

theorem thread_creation_failure_drops_event_witness :
    forward_to_group trFail ⟨100, PayloadKind.text⟩ ⟨[], none⟩ = ([], ⟨[], none⟩) :=
  thread_creation_failure_drops_event trFail ⟨[], none⟩ 100 PayloadKind.text rfl rfl

/-- C10: a private message from an unmapped user whose payload kind is none
of the handled ones (e.g. a location or a contact) still triggers exactly
one thread creation and one persistence publish of the new mapping, but
nothing at all is forwarded into the thread: the payload is silently
dropped after thread resolution. -/
theorem unsupported_payload_silently_dropped (tr : Transport) (st : BotState)
    (u : Int) (k : PayloadKind)
    (hu : dictGet st.user_threads u = none)
    (hintro : tr.introOk = true)
    (hsend : tr.sendBackupOk = true)
    (hk : forwardablePayload k = false) :
    ((forward_to_group tr ⟨u, k⟩ st).1.countP (isCreateFor u) = 1) ∧
    ((forward_to_group tr ⟨u, k⟩ st).1.countP isPublishEv = 1) ∧
    ((forward_to_group tr ⟨u, k⟩ st).1.countP isForwardEv = 0) ∧
    (dictGet (forward_to_group tr ⟨u, k⟩ st).2.user_threads u = some tr.newThreadId) := by
  have hmap : dictGet (forward_to_group tr ⟨u, k⟩ st).2.user_threads u
      = some tr.newThreadId := by
    rw [forward_unmapped_threads tr st u k hu hintro, dictGet_dictSet_self]
  refine ⟨?_, ?_, ?_, hmap⟩ <;>
  · unfold forward_to_group
    simp only [hu]
    simp only [open_thread_for_user, hintro, if_true]
    obtain ⟨ut, bmi⟩ := st
    cases bmi with
    | none =>
      simp [save_threads_to_group, forwardPayload, hsend, hk,
        isCreateFor, isPublishEv, isForwardEv,
        List.countP_cons, List.countP_append]
    | some h2 =>
      by_cases he : tr.editOk <;>
        simp [save_threads_to_group, forwardPayload, hsend, he, hk,
          isCreateFor, isPublishEv, isForwardEv,
          List.countP_cons, List.countP_append]

theorem unsupported_payload_silently_dropped_witness :
    ((forward_to_group trDemo ⟨100, PayloadKind.location⟩ ⟨[], none⟩).1.countP
        (isCreateFor 100) = 1) ∧
    ((forward_to_group trDemo ⟨100, PayloadKind.location⟩ ⟨[], none⟩).1.countP
        isPublishEv = 1) ∧
    ((forward_to_group trDemo ⟨100, PayloadKind.location⟩ ⟨[], none⟩).1.countP
        isForwardEv = 0) ∧
    (dictGet (forward_to_group trDemo ⟨100, PayloadKind.location⟩ ⟨[], none⟩).2.user_threads
        100 = some 7) :=
  unsupported_payload_silently_dropped trDemo ⟨[], none⟩ 100 PayloadKind.location
    rfl rfl rfl rfl

-- ### C4: the publish protocol of save_threads_to_group

/-- A state already holding a backup handle, for exercising the edit path. -/
def stEditDemo : BotState :=
  { user_threads := [((1 : Int), (7 : Int))], backup_message_id := some 5 }

/-- C4 (counterexample): a persistence publish with a remembered handle and
a succeeding edit publishes the payload by editing the prior artifact in
place: it publishes zero new artifacts and attempts zero retirements, so
the publish-new-artifact-then-retire-prior protocol of the claim is not
what the code does. -/
theorem save_publish_protocol_cex :
    ((save_threads_to_group trDemo stEditDemo).1.countP isNewArtifactEv = 0) ∧
    ((save_threads_to_group trDemo stEditDemo).1.countP isRetireEv = 0) ∧
    ((save_threads_to_group trDemo stEditDemo).1.countP isPublishEv = 1) := by
  refine ⟨?_, ?_, ?_⟩ <;> decide

/-- C4 (amended): every persistence publish edits the remembered artifact
in place when a handle is known and the edit succeeds; only when no handle
is known, or the edit fails, does it publish the payload as a new artifact
and remember that artifact's handle; and no publish ever attempts to retire
a prior artifact. -/
theorem save_publish_protocol (tr : Transport) (st : BotState) (h : Nat) :
    ((save_threads_to_group tr st).1.countP isRetireEv = 0) ∧
    (st.backup_message_id = some h → tr.editOk = true →
      (save_threads_to_group tr st).1
          = [Ev.editBackup h (encodeBackup st.user_threads) true] ∧
      (save_threads_to_group tr st).2 = st) ∧
    (st.backup_message_id = none → tr.sendBackupOk = true →
      (save_threads_to_group tr st).1
          = [Ev.publishBackup tr.backupMsgId (encodeBackup st.user_threads)] ∧
      (save_threads_to_group tr st).2.backup_message_id = some tr.backupMsgId) ∧
    (st.backup_message_id = some h → tr.editOk = false → tr.sendBackupOk = true →
      (save_threads_to_group tr st).1
          = [Ev.editBackup h (encodeBackup st.user_threads) false,
             Ev.publishBackup tr.backupMsgId (encodeBackup st.user_threads)] ∧
      (save_threads_to_group tr st).2.backup_message_id = some tr.backupMsgId) := by
  obtain ⟨ut, bmi⟩ := st
  refine ⟨?_, ?_, ?_, ?_⟩
  · cases bmi with
    | none =>
      by_cases hs : tr.sendBackupOk <;>
        simp [save_threads_to_group, hs, isRetireEv, List.countP_cons]
    | some h2 =>
      by_cases he : tr.editOk
      · simp [save_threads_to_group, he, isRetireEv, List.countP_cons]
      · by_cases hs : tr.sendBackupOk <;>
          simp [save_threads_to_group, he, hs, isRetireEv, List.countP_cons]
  · intro hb he
    simp only at hb
    subst hb
    simp [save_threads_to_group, he]
  · intro hb hs
    simp only at hb
    subst hb
    simp [save_threads_to_group, hs]
  · intro hb he hs
    simp only at hb
    subst hb
    simp [save_threads_to_group, he, hs]

theorem save_publish_protocol_witness :
    ((save_threads_to_group trDemo stEditDemo).1
        = [Ev.editBackup 5 (encodeBackup stEditDemo.user_threads) true]) ∧
    ((save_threads_to_group trDemo ⟨[], none⟩).1
        = [Ev.publishBackup 5 (encodeBackup [])]) :=
  ⟨((save_publish_protocol trDemo stEditDemo 5).2.1 rfl rfl).1,
   ((save_publish_protocol trDemo ⟨[], none⟩ 0).2.2.1 rfl rfl).1⟩

-- ### C5: set followed by reverse lookup

/-- C5 (counterexample): when another user (1) is already mapped to thread
7, `set(2, 7)` followed by the reverse scan of lines 217-221 returns user
1, not user 2: the claim fails as stated on aliased thread ids. -/
theorem find_user_after_set_cex :
    find_user_by_thread (dictSet [((1 : Int), (7 : Int))] 2 7) 7 = some 1 ∧
    ¬ ((1 : Int) = 2) := by
  refine ⟨?_, ?_⟩ <;> decide

/-- C5 (amended): after `set(u, t)`, the reverse lookup returns `u`
provided no other user is already mapped to thread `t` — which is the case
in every reachable state, since the platform issues each thread id at most
once. -/
theorem find_user_after_set (m : ThreadMap) (u t : Int)
    (h : ∀ p ∈ m, p.2 = t → p.1 = u) :
    find_user_by_thread (dictSet m u t) t = some u := by
  induction m with
  | nil => simp [dictSet, find_user_by_thread]
  | cons p rest ih =>
    obtain ⟨k2, v2⟩ := p
    by_cases hk : k2 = u
    · subst hk
      simp [dictSet, find_user_by_thread]
    · have hv : ¬ v2 = t := by
        intro hv
        exact hk (h (k2, v2) (List.mem_cons_self _ _) hv)
      simp only [dictSet, if_neg hk, find_user_by_thread, if_neg hv]
      exact ih (fun p hp hpt => h p (List.mem_cons_of_mem _ hp) hpt)

theorem find_user_after_set_witness :
    find_user_by_thread (dictSet [((3 : Int), (5 : Int))] 2 7) 7 = some 2 :=
  find_user_after_set [((3 : Int), (5 : Int))] 2 7 (by decide)

-- ### C8: backup artifacts are never routed to users

/-- C8: an admin-group event whose text carries the backup marker is never
routed to any user: `handle_group_reply` returns at line 211, before the
reverse lookup, and emits no copy event. -/
theorem backup_artifact_never_copied (tr : Transport) (msg : GroupMsg)
    (st : BotState) (t : List Char)
    (ht : msg.text = some t)
    (hm : startsWithL markerChars t = true) :
    handle_group_reply tr msg st = [] := by
  unfold handle_group_reply
  cases hb : msg.is_topic_message
  · simp
  · simp [ht, hm]

/-- A backup artifact as it would arrive back as a group event, in a state
where its topic thread id would resolve to a user. -/
def backupGroupMsg : GroupMsg :=
  { is_topic_message := true,
    text := some (markerChars ++ '\n' :: jsonDumps [((1 : Int), (7 : Int))]),
    message_thread_id := 7 }

theorem backup_artifact_never_copied_witness :
    handle_group_reply trDemo backupGroupMsg ⟨[((1 : Int), (7 : Int))], some 5⟩ = [] :=
  backup_artifact_never_copied trDemo backupGroupMsg ⟨[((1 : Int), (7 : Int))], some 5⟩
    (markerChars ++ '\n' :: jsonDumps [((1 : Int), (7 : Int))]) rfl
    (startsWithL_append markerChars _)

-- ### C6: run_bot startup ordering (lines 269-295)

/-- The startup steps of `run_bot`, in program order. -/
inductive StartupStep
  | createApplication
  | attemptRecoveryCall
  | recoveryCompleted
  | registerHandlers
  | startPeriodicBackup
  | setWebhook
  | startServer
deriving DecidableEq

/-- A raised Python exception, as far as startup is concerned. -/
inductive PyError
  | typeErrorMissingArgument
deriving DecidableEq

/-- Number of required positional parameters of `load_threads_from_group`:
its signature at line 35 is `async def load_threads_from_group(bot)`. -/
def loadThreadsRequiredArgs : Nat := 1

/-- Number of arguments supplied at the recovery call site inside
`run_bot`: line 276 reads `await load_threads_from_group()`. -/
def runBotRecoveryCallArgs : Nat := 0

/-- Function `run_bot` (lines 269-311): build the application, call the recovery
loader, then register the four handlers, start the periodic backup task,
set the webhook and start serving.  Calling `load_threads_from_group` with
fewer arguments than its required parameters raises `TypeError` at the call
site, which the `except` of lines 313-315 logs and re-raises, so startup
aborts.  Returns the steps reached, and either the error or the recovered
state. -/
def run_bot (gid : Int) (updates : List (Option UpdMsg)) (st : BotState) :
    List StartupStep × Except PyError BotState :=
  if runBotRecoveryCallArgs < loadThreadsRequiredArgs then
    ([StartupStep.createApplication, StartupStep.attemptRecoveryCall],
     Except.error PyError.typeErrorMissingArgument)
  else
    ([StartupStep.createApplication, StartupStep.attemptRecoveryCall,
      StartupStep.recoveryCompleted, StartupStep.registerHandlers,
      StartupStep.startPeriodicBackup, StartupStep.setWebhook,
      StartupStep.startServer],
     Except.ok (load_threads_from_group gid updates st))

/-- C6 (code defect): every startup raises `TypeError` at the recovery call
(line 276 passes no argument to a function requiring one), so recovery
never completes, the handlers are never registered and the bot never
starts — the intended order recovery-before-registration appears in the
source but is unreachable. -/
theorem run_bot_startup_raises (gid : Int) (updates : List (Option UpdMsg))
    (st : BotState) :
    (run_bot gid updates st).2 = Except.error PyError.typeErrorMissingArgument ∧
    StartupStep.recoveryCompleted ∉ (run_bot gid updates st).1 ∧
    StartupStep.registerHandlers ∉ (run_bot gid updates st).1 := by
  refine ⟨?_, ?_, ?_⟩ <;>
    simp [run_bot, runBotRecoveryCallArgs, loadThreadsRequiredArgs]
